import Mathlib

/-!
Verification of the outlier-detection core of the `anomalies-detector`
repository (package `analyser`, plus the `utils.StrToDuration` helper and the
report assembly in `GetResults`).

Modelling conventions:
* `time.Time` values are modelled as integers (`Int`), as in Unix nanoseconds;
  only their ordering matters to the code under study.
* `float64` arithmetic is modelled as exact rational arithmetic (`Rat`).  The
  source computes `sd := math.Sqrt(variance)` and compares `|v-mean| > k*sd`;
  since `Real.sqrt` of a rational is not exactly computable, the executable
  embedding `exceedsLimit` performs the equivalent squared comparison, and the
  lemma `exceedsLimit_iff_sqrt` certifies that it agrees with the source's
  `|v - mean| > k * sqrt(variance)` test over the real numbers.
* Go slices become `List`, Go maps with zero-value lookup become total
  functions, `time.Now()` becomes an explicit parameter, and fallible code
  returns `Option`.
-/

namespace AnomaliesDetector

/-- Model of `collector.TimeStepData`: one sample of a series. -/
structure TimeStepData where
  DateStart : Int
  Value : Rat
  Samples : Int
deriving Repr, DecidableEq, Inhabited

/-- Model of `analyser.eventPeriod`: a period of time. -/
structure eventPeriod where
  outlierPeriodStart : Int
  outlierPeriodEnd : Int
deriving Repr, DecidableEq, Inhabited

/-- First loop of `detectOutliers3Sigmas`: `sum += stepData.Value`. -/
def sumValues (data : List TimeStepData) : Rat :=
  data.foldl (fun a d => a + d.Value) 0

/-- `mean = sum / float64(count)` in `detectOutliers3Sigmas`. -/
def meanOf (data : List TimeStepData) : Rat :=
  sumValues data / (data.length : Rat)

/-- Second loop of `detectOutliers3Sigmas`: `sd += math.Pow(stepData.Value-mean, 2)`. -/
def sqDevSum (data : List TimeStepData) : Rat :=
  data.foldl (fun a d => a + (d.Value - meanOf data) ^ 2) 0

/-- The variance `sd / float64(count)` computed by `detectOutliers3Sigmas`
just before it takes the square root. -/
def varOf (data : List TimeStepData) : Rat :=
  sqDevSum data / (data.length : Rat)

/-- The source's per-sample test `math.Abs(v-mean) > k*math.Sqrt(var)`,
encoded without square roots so that it is executable over `Rat`:
for `0 ≤ k` squaring both (nonnegative) sides is an equivalence, and for
`k < 0` the test holds unless both sides are zero.  The lemma
`exceedsLimit_iff_sqrt` proves this encoding equivalent to the source's
real-number comparison. -/
def exceedsLimit (v mean k var : Rat) : Bool :=
  if 0 ≤ k then decide (k ^ 2 * var < (v - mean) ^ 2)
  else decide (0 < (v - mean) ^ 2 ∨ 0 < var)

/-- Classification of one sample: NORMAL, a weak outlier, or a strong outlier. -/
inductive SampleKind where
  | NORMAL
  | WEAK
  | STRONG
deriving Repr, DecidableEq

/-- The classification performed by the branch structure of the third loop of
`detectOutliers3Sigmas`: the strong test is evaluated first, then the weak
test, otherwise the sample is normal. -/
def kindOf (mean var wM sM v : Rat) : SampleKind :=
  if exceedsLimit v mean sM var then .STRONG
  else if exceedsLimit v mean wM var then .WEAK
  else .NORMAL

/-- The same classification with the standard deviation `sd` abstracted as a
parameter, exactly as the source writes it:
`|v - mean| > strongLimit` then `|v - mean| > weakLimit` with
`strongLimit = sM * sd` and `weakLimit = wM * sd`. -/
def kindWithSd (mean sd wM sM v : Rat) : SampleKind :=
  if |v - mean| > sM * sd then .STRONG
  else if |v - mean| > wM * sd then .WEAK
  else .NORMAL

/-- The state of the third loop of `detectOutliers3Sigmas`: `beginStep` is the
index at which the open period started (`-1` when none is open), `strongEvent`
tells whether the open period is an alarm, and `warnings`/`alarms` accumulate
the closed periods. -/
structure SMState where
  beginStep : Int
  strongEvent : Bool
  warnings : List eventPeriod
  alarms : List eventPeriod
deriving Repr, DecidableEq

/-- Initial loop state: `beginStep := -1`, `strongEvent := false`, empty lists. -/
def initSM : SMState := ⟨-1, false, [], []⟩

/-- `data[j].DateStart` for an `Int` index, as used with `beginStep`. -/
def startTs (data : List TimeStepData) (j : Int) : Int :=
  (data.getD j.toNat default).DateStart

/-- Timestamp of the sample at a natural-number index. -/
def tss (data : List TimeStepData) (i : Nat) : Int :=
  (data.getD i default).DateStart

/-- `data[ind].Value`, the sample value read by the loop body. -/
def valAt (data : List TimeStepData) (ind : Nat) : Rat :=
  (data.getD ind default).Value

/-- The body of the third loop of `detectOutliers3Sigmas`, transcribed branch
by branch from the source (strong test, then weak test, then the normal
case). -/
def loopBody (data : List TimeStepData) (mean var wM sM : Rat)
    (s : SMState) (ind : Nat) : SMState :=
  if exceedsLimit (valAt data ind) mean sM var then
    if s.beginStep = -1 then
      { s with beginStep := (ind : Int), strongEvent := true }
    else if s.strongEvent = false then
      { s with warnings := s.warnings ++ [⟨startTs data s.beginStep, startTs data ind⟩],
               beginStep := (ind : Int), strongEvent := true }
    else s
  else if exceedsLimit (valAt data ind) mean wM var then
    if s.beginStep = -1 then
      { s with beginStep := (ind : Int), strongEvent := false }
    else if s.strongEvent = true then
      { s with alarms := s.alarms ++ [⟨startTs data s.beginStep, startTs data ind⟩],
               beginStep := (ind : Int), strongEvent := false }
    else s
  else
    if s.beginStep ≠ -1 then
      if s.strongEvent = true then
        { s with alarms := s.alarms ++ [⟨startTs data s.beginStep, startTs data ind⟩],
                 beginStep := -1 }
      else
        { s with warnings := s.warnings ++ [⟨startTs data s.beginStep, startTs data ind⟩],
                 beginStep := -1 }
    else s

/-- The third loop of `detectOutliers3Sigmas`: fold the loop body over the
indices `0, …, len(data)-1`. -/
def runLoop (data : List TimeStepData) (mean var wM sM : Rat) : SMState :=
  (List.range data.length).foldl (loopBody data mean var wM sM) initSM

/-- The code after the loop: close any event still open, with
`outlierPeriodEnd := PeriodEnd`. -/
def closeOpen (data : List TimeStepData) (PeriodEnd : Int) (s : SMState) : SMState :=
  if s.beginStep ≠ -1 then
    if s.strongEvent = true then
      { s with alarms := s.alarms ++ [⟨startTs data s.beginStep, PeriodEnd⟩] }
    else
      { s with warnings := s.warnings ++ [⟨startTs data s.beginStep, PeriodEnd⟩] }
  else s

/-- Model of `analyser.detectOutliers3Sigmas`: compute the baseline statistics,
run the classification loop, close any open event, and return the two lists
`(warnings, alarms)`. -/
def detectOutliers3Sigmas (data : List TimeStepData) (PeriodEnd : Int)
    (outliersMultiplier strongOutliersMultiplier : Rat) :
    List eventPeriod × List eventPeriod :=
  let mean := meanOf data
  let var := varOf data
  let final := closeOpen data PeriodEnd
    (runLoop data mean var outliersMultiplier strongOutliersMultiplier)
  (final.warnings, final.alarms)

/-- The 30 reference samples from the repository's test, with daily timestamps
modelled as `0, 1, …, 29` and the values from `TestDetectOutliers3Sigmas`. -/
def refData : List TimeStepData :=
  (List.enum [(221 : Rat), 254, 270, 264, 244, 241, 238, 243, 277, 237, 254, 289,
    278, 264, 265, 243, 284, 244, 212, 242, 271, 243, 252, 230, 238, 214, 234,
    1027, 1057, 911]).map (fun p => ⟨(p.1 : Int), p.2, 100⟩)

/-- The spec's transition table for the event-period state machine, written
directly from the table's nine rows: the row is selected by the current open
state and the classification of the sample at index `ind`. -/
def specStep (data : List TimeStepData) (s : SMState) (ind : Nat)
    (c : SampleKind) : SMState :=
  if s.beginStep = -1 then
    match c with
    | .NORMAL => s
    | .WEAK => { s with beginStep := (ind : Int), strongEvent := false }
    | .STRONG => { s with beginStep := (ind : Int), strongEvent := true }
  else if s.strongEvent = false then
    match c with
    | .WEAK => s
    | .STRONG =>
      { s with warnings := s.warnings ++ [⟨startTs data s.beginStep, startTs data ind⟩],
               beginStep := (ind : Int), strongEvent := true }
    | .NORMAL =>
      { s with warnings := s.warnings ++ [⟨startTs data s.beginStep, startTs data ind⟩],
               beginStep := -1 }
  else
    match c with
    | .STRONG => s
    | .WEAK =>
      { s with alarms := s.alarms ++ [⟨startTs data s.beginStep, startTs data ind⟩],
               beginStep := (ind : Int), strongEvent := false }
    | .NORMAL =>
      { s with alarms := s.alarms ++ [⟨startTs data s.beginStep, startTs data ind⟩],
               beginStep := -1 }

attribute [local semireducible] Rat.mul Rat.add Rat.sub Rat.inv

/-- Helper: the concrete final loop state on the reference data with
multipliers 2 and 3: a strong period is open at index 27 until the weak sample
at index 29 closes it as an alarm and reopens a weak period at 29. -/
theorem refData_runLoop :
    runLoop refData (meanOf refData) (varOf refData) 2 3 =
      ⟨29, false, [], [⟨27, 29⟩]⟩ := by
  set_option maxRecDepth 100000 in decide

/-- C3: on the reference input of 30 daily samples with weak multiplier 2 and
strong multiplier 3, `detectOutliers3Sigmas` returns exactly one alarm period
from the timestamp of sample 27 to the timestamp of sample 29, and exactly one
warning period from the timestamp of sample 29 to the caller-supplied series
end boundary. -/
theorem detect_reference_run (PeriodEnd : Int) :
    detectOutliers3Sigmas refData PeriodEnd 2 3 =
      ([⟨tss refData 29, PeriodEnd⟩], [⟨tss refData 27, tss refData 29⟩]) := by
  simp only [detectOutliers3Sigmas, refData_runLoop, closeOpen]
  norm_num [startTs, tss]
  constructor <;> set_option maxRecDepth 10000 in decide

/-- C2: the loop body of `detectOutliers3Sigmas` follows the spec's transition
table on every input: the action taken at index `ind` is the table row selected
by the current open state (none / weak / strong) and the classification of the
current sample (NORMAL / WEAK / STRONG). -/
theorem loop_follows_transition_table (data : List TimeStepData)
    (mean var wM sM : Rat) (s : SMState) (ind : Nat) :
    loopBody data mean var wM sM s ind =
      specStep data s ind (kindOf mean var wM sM (valAt data ind)) := by
  unfold loopBody specStep kindOf
  split_ifs <;> simp_all

/-- C1: any period closed while processing sample `ind` starts at the
timestamp of the sample at the recorded open index (`beginStep`) and ends at
the timestamp of the sample that triggered the close; a period still open
after the loop is closed with end equal to the caller-supplied `PeriodEnd`
argument, which is unconstrained and in particular need not equal the last
sample's timestamp. -/
theorem period_close_timestamps :
    (∀ (data : List TimeStepData) (mean var wM sM : Rat) (s : SMState)
       (ind : Nat) (e : eventPeriod),
       ((e ∈ (loopBody data mean var wM sM s ind).warnings ∧ e ∉ s.warnings) ∨
        (e ∈ (loopBody data mean var wM sM s ind).alarms ∧ e ∉ s.alarms)) →
       s.beginStep ≠ -1 ∧ e = ⟨startTs data s.beginStep, startTs data ind⟩) ∧
    (∀ (data : List TimeStepData) (PeriodEnd : Int) (s : SMState)
       (e : eventPeriod),
       ((e ∈ (closeOpen data PeriodEnd s).warnings ∧ e ∉ s.warnings) ∨
        (e ∈ (closeOpen data PeriodEnd s).alarms ∧ e ∉ s.alarms)) →
       s.beginStep ≠ -1 ∧ e = ⟨startTs data s.beginStep, PeriodEnd⟩) := by
  constructor
  · intro data mean var wM sM s ind e he
    unfold loopBody at he
    by_cases h1 : exceedsLimit (valAt data ind) mean sM var = true <;>
      by_cases h2 : exceedsLimit (valAt data ind) mean wM var = true <;>
        by_cases h3 : s.beginStep = -1 <;>
          by_cases h4 : s.strongEvent = true <;>
            simp [h1, h2, h3, h4] at he <;>
              tauto
  · intro data PeriodEnd s e he
    unfold closeOpen at he
    by_cases h3 : s.beginStep = -1 <;>
      by_cases h4 : s.strongEvent = true <;>
        simp [h3, h4] at he <;>
          tauto

/-- Witness for C1: closing the still-open weak period of a concrete state
emits exactly the period from the open index's timestamp to `PeriodEnd`. -/
theorem period_close_timestamps_witness :
    ((⟨0, false, [], []⟩ : SMState).beginStep ≠ -1) ∧
      (⟨5, 99⟩ : eventPeriod) = ⟨startTs [⟨5, 0, 1⟩] 0, 99⟩ :=
  period_close_timestamps.2 [⟨5, 0, 1⟩] 99 ⟨0, false, [], []⟩ ⟨5, 99⟩ (by decide)

/-- C4: the classification of `detectOutliers3Sigmas` uses strict
greater-than comparisons against `strongLimit = sM * sd` and
`weakLimit = wM * sd`: a sample exactly at a limit is not an outlier at that
limit, and the strong test is evaluated first, so a sample exceeding both
limits is always classified STRONG. -/
theorem kind_strict_limits (mean sd wM sM v : Rat) :
    (|v - mean| = sM * sd → kindWithSd mean sd wM sM v ≠ .STRONG) ∧
    (|v - mean| = wM * sd → kindWithSd mean sd wM sM v ≠ .WEAK) ∧
    (sM * sd < |v - mean| → wM * sd < |v - mean| →
      kindWithSd mean sd wM sM v = .STRONG) := by
  unfold kindWithSd
  refine ⟨fun h => ?_, fun h => ?_, fun h1 h2 => ?_⟩
  · rw [h]
    simp [lt_irrefl]
    split <;> simp
  · simp [h, lt_irrefl]
    split <;> simp
  · simp [h1]

/-- Witness for C4: at `mean = 0`, `sd = 1`, a value exactly at a limit is not
classified at that limit, and a value above both limits is STRONG. -/
theorem kind_strict_limits_witness :
    (kindWithSd 0 1 1 2 2 ≠ .STRONG) ∧ (kindWithSd 0 1 2 3 2 ≠ .WEAK) ∧
      (kindWithSd 0 1 1 2 5 = .STRONG) :=
  ⟨(kind_strict_limits 0 1 1 2 2).1 (by norm_num),
   (kind_strict_limits 0 1 2 3 2).2.1 (by norm_num),
   (kind_strict_limits 0 1 1 2 5).2.2 (by norm_num) (by norm_num)⟩

/-- Helper: folding `fun acc d => acc + f d` from `a` computes `a` plus the
sum of the mapped list. -/
theorem foldl_add_map (f : TimeStepData → Rat) (l : List TimeStepData) (a : Rat) :
    l.foldl (fun acc d => acc + f d) a = a + (l.map f).sum := by
  induction l generalizing a with
  | nil => simp
  | cons d l ih => simp [ih, add_assoc]

/-- Helper: the variance accumulated by the second loop is nonnegative. -/
theorem varOf_nonneg (data : List TimeStepData) : 0 ≤ varOf data := by
  unfold varOf sqDevSum
  apply div_nonneg _ (by positivity)
  rw [foldl_add_map (fun d => (d.Value - meanOf data) ^ 2)]
  simp only [zero_add]
  apply List.sum_nonneg
  intro x hx
  simp only [List.mem_map] at hx
  obtain ⟨d, _, rfl⟩ := hx
  positivity

/-- Helper: over the real numbers, the executable squared test `exceedsLimit`
holds exactly when `|v - mean| > k * sqrt(var)`, the comparison written in the
source with `sd = math.Sqrt(var)`. -/
theorem exceedsLimit_iff_sqrt (v mean k var : Rat) (hvar : 0 ≤ var) :
    exceedsLimit v mean k var = true ↔
      (k : ℝ) * Real.sqrt (var : ℝ) < |(v : ℝ) - (mean : ℝ)| := by
  have hs : (0:ℝ) ≤ (var:ℝ) := by exact_mod_cast hvar
  unfold exceedsLimit
  by_cases hk : (0:ℚ) ≤ k
  · have hk2 : (0:ℝ) ≤ (k:ℝ) := by exact_mod_cast hk
    have hsq : ((k:ℝ) * Real.sqrt (var:ℝ)) ^ 2 = (k:ℝ) ^ 2 * (var:ℝ) := by
      rw [mul_pow, Real.sq_sqrt hs]
    have habs : |(k:ℝ) * Real.sqrt (var:ℝ)| = (k:ℝ) * Real.sqrt (var:ℝ) :=
      abs_of_nonneg (mul_nonneg hk2 (Real.sqrt_nonneg _))
    simp only [hk, if_true, decide_eq_true_eq]
    constructor
    · intro h
      have hr : (k:ℝ) ^ 2 * (var:ℝ) < ((v:ℝ) - (mean:ℝ)) ^ 2 := by
        exact_mod_cast h
      have h3 : ((k:ℝ) * Real.sqrt (var:ℝ)) ^ 2 < ((v:ℝ) - (mean:ℝ)) ^ 2 := by
        rw [hsq]; exact hr
      have h4 := sq_lt_sq.1 h3
      rwa [habs] at h4
    · intro h
      have h3 : ((k:ℝ) * Real.sqrt (var:ℝ)) ^ 2 < ((v:ℝ) - (mean:ℝ)) ^ 2 :=
        sq_lt_sq.2 (by rw [habs]; exact h)
      rw [hsq] at h3
      exact_mod_cast h3
  · have hk2 : (k:ℝ) < 0 := by
      have : k < 0 := lt_of_not_ge hk
      exact_mod_cast this
    simp only [hk, if_false, decide_eq_true_eq]
    by_cases hv : (0:ℚ) < var
    · have hv2 : (0:ℝ) < (var:ℝ) := by exact_mod_cast hv
      have : (k:ℝ) * Real.sqrt (var:ℝ) < 0 :=
        mul_neg_of_neg_of_pos hk2 (Real.sqrt_pos.2 hv2)
      constructor
      · intro _; exact lt_of_lt_of_le this (abs_nonneg _)
      · intro _; exact Or.inr hv
    · have hv0 : var = 0 := le_antisymm (le_of_not_lt hv) hvar
      subst hv0
      simp only [Rat.cast_zero, Real.sqrt_zero, mul_zero, abs_pos, lt_irrefl,
        or_false]
      constructor
      · intro h
        have : v - mean ≠ 0 := by
          intro h0
          rw [h0] at h
          simp at h
        intro h0
        apply this
        have : (v:ℝ) - (mean:ℝ) = ((v - mean : ℚ) : ℝ) := by push_cast; ring
        rw [this] at h0
        exact_mod_cast h0
      · intro h
        have hne : v - mean ≠ 0 := by
          intro h0
          apply h
          rw [show (v:ℝ) - (mean:ℝ) = ((v - mean : ℚ) : ℝ) from by push_cast; ring, h0]
          exact Rat.cast_zero
        positivity

/-- C5: the baseline statistics of `detectOutliers3Sigmas` are
`mean = Σ value / N` and the population variance `Σ (value - mean)² / N`
(divisor `N`, not `N-1`), and the loop's outlier test agrees with
`|v - mean| > k * sqrt(variance)`, i.e. with `stddev = sqrt(variance)`.
Non-emptiness is a precondition of the statistics, not a checked error. -/
theorem baseline_statistics (data : List TimeStepData) (h : data ≠ []) :
    meanOf data = (data.map (fun d => d.Value)).sum / (data.length : Rat) ∧
    varOf data =
      (data.map (fun d => (d.Value - meanOf data) ^ 2)).sum / (data.length : Rat) ∧
    ∀ k v : Rat, exceedsLimit v (meanOf data) k (varOf data) = true ↔
      (k : ℝ) * Real.sqrt ((varOf data : Rat) : ℝ) <
        |(v : ℝ) - ((meanOf data : Rat) : ℝ)| := by
  refine ⟨?_, ?_, fun k v => exceedsLimit_iff_sqrt v (meanOf data) k (varOf data)
    (varOf_nonneg data)⟩
  · unfold meanOf sumValues
    rw [foldl_add_map (fun d => d.Value), zero_add]
  · unfold varOf sqDevSum
    rw [foldl_add_map (fun d => (d.Value - meanOf data) ^ 2), zero_add]

/-- Witness for C5: the statistics of a concrete two-sample series. -/
theorem baseline_statistics_witness :
    meanOf [⟨0, 1, 1⟩, ⟨1, 3, 1⟩] =
      (([⟨0, 1, 1⟩, ⟨1, 3, 1⟩] : List TimeStepData).map (fun d => d.Value)).sum /
        (([⟨0, 1, 1⟩, ⟨1, 3, 1⟩] : List TimeStepData).length : Rat) :=
  (baseline_statistics [⟨0, 1, 1⟩, ⟨1, 3, 1⟩] (by decide)).1

/-- Model of `collector.MetricData`; the Go map `AttributeData` is modelled as
a total function (a missing key yields the zero value `[]`). -/
structure MetricData where
  Metric : String
  Unit : String
  Attributes : List String
  AttributeData : String → List TimeStepData

/-- Model of `collector.SiteData`. -/
structure SiteData where
  SiteId : String
  DateStart : Int
  DateEnd : Int
  Metrics : List MetricData

/-- Model of the fields of `config.Dataset` used by `GetResults`. -/
structure Dataset where
  SiteId : String
  TimeAgo : String
  TimeStep : String
  OutliersDetectionMethod : String

/-- Model of `config.ThreeSigmasParams`. -/
structure ThreeSigmasParams where
  OutliersMultiplier : Rat
  StrongOutliersMultiplier : Rat

/-- Model of `config.DetectionMethodsParams`. -/
structure DetectionMethodsParams where
  ThreeSigmas : ThreeSigmasParams

/-- Model of `analyser.OutlierEvent`. -/
structure OutlierEvent where
  OutlierPeriodStart : Int
  OutlierPeriodEnd : Int
  Metric : String
  Attribute : String
deriving Repr, DecidableEq

/-- Model of `analyser.OutlierResults`. -/
structure OutlierResults where
  Warnings : List OutlierEvent
  Alarms : List OutlierEvent
deriving Repr, DecidableEq

/-- Model of `analyser.OutlierReport`; the two `time.Now()` readings become
the explicit `CheckDateStart`/`CheckDateEnd` fields filled by the caller. -/
structure OutlierReport where
  SiteId : String
  OutliersDetectionMethod : String
  CheckDateStart : Int
  CheckDateEnd : Int
  TimeAgo : String
  TimeStep : String
  DateStart : Int
  DateEnd : Int
  Result : OutlierResults

/-- The body of the attribute loop in `GetResults`: run the detection method
selected by the report's method name (an unknown name logs and yields two
empty lists) and append the labelled events to the report. -/
def attributeStep (siteData : SiteData) (methodParams : DetectionMethodsParams)
    (metricData : MetricData) (res : OutlierReport) (attr : String) :
    OutlierReport :=
  let wa :=
    if res.OutliersDetectionMethod = "3-sigmas" then
      detectOutliers3Sigmas (metricData.AttributeData attr) siteData.DateEnd
        methodParams.ThreeSigmas.OutliersMultiplier
        methodParams.ThreeSigmas.StrongOutliersMultiplier
    else ([], [])
  { res with Result :=
      { Warnings := res.Result.Warnings ++ wa.1.map (fun w =>
          ⟨w.outlierPeriodStart, w.outlierPeriodEnd, metricData.Metric, attr⟩),
        Alarms := res.Result.Alarms ++ wa.2.map (fun a =>
          ⟨a.outlierPeriodStart, a.outlierPeriodEnd, metricData.Metric, attr⟩) } }

/-- Model of `analyser.GetResults`: initialise the report, loop over all
metrics and their attribute combinations, and record the check end time. -/
def GetResults (siteData : SiteData) (dataConf : Dataset)
    (methodParams : DetectionMethodsParams) (checkStart checkEnd : Int) :
    OutlierReport :=
  let res0 : OutlierReport :=
    { SiteId := siteData.SiteId,
      OutliersDetectionMethod := dataConf.OutliersDetectionMethod,
      CheckDateStart := checkStart,
      CheckDateEnd := 0,
      TimeAgo := dataConf.TimeAgo,
      TimeStep := dataConf.TimeStep,
      DateStart := siteData.DateStart,
      DateEnd := siteData.DateEnd,
      Result := ⟨[], []⟩ }
  let res := siteData.Metrics.foldl
    (fun res metricData =>
      metricData.Attributes.foldl (attributeStep siteData methodParams metricData) res)
    res0
  { res with CheckDateEnd := checkEnd }

/-- Helper: one attribute step neither changes the method name nor, when that
name is not "3-sigmas", the accumulated result lists. -/
theorem attributeStep_unknown (siteData : SiteData)
    (methodParams : DetectionMethodsParams) (metricData : MetricData)
    (res : OutlierReport) (attr : String)
    (h : res.OutliersDetectionMethod ≠ "3-sigmas") :
    attributeStep siteData methodParams metricData res attr =
      { res with Result := res.Result } := by
  unfold attributeStep
  simp [h]

/-- Helper: the attribute fold preserves the method name and, when it is not
"3-sigmas", the result lists. -/
theorem attrFold_unknown (siteData : SiteData)
    (methodParams : DetectionMethodsParams) (metricData : MetricData)
    (attrs : List String) (res : OutlierReport)
    (h : res.OutliersDetectionMethod ≠ "3-sigmas") :
    attrs.foldl (attributeStep siteData methodParams metricData) res = res := by
  induction attrs generalizing res with
  | nil => rfl
  | cons a attrs ih =>
    rw [List.foldl_cons, attributeStep_unknown siteData methodParams metricData res a h]
    exact ih res h

/-- Helper: the metric fold is the identity when the method name is unknown. -/
theorem metricFold_unknown (siteData : SiteData)
    (methodParams : DetectionMethodsParams) (metrics : List MetricData)
    (res : OutlierReport) (h : res.OutliersDetectionMethod ≠ "3-sigmas") :
    metrics.foldl
      (fun res metricData =>
        metricData.Attributes.foldl (attributeStep siteData methodParams metricData) res)
      res = res := by
  induction metrics generalizing res with
  | nil => rfl
  | cons m metrics ih =>
    rw [List.foldl_cons, attrFold_unknown siteData methodParams m m.Attributes res h]
    exact ih res h

/-- C6: for every site input and configuration whose detection method name is
not "3-sigmas", `GetResults` still assembles a full report, in which both
event lists are empty for every attribute of every metric; nothing aborts the
assembly and no error reaches the caller (the function's only result is the
report). -/
theorem getResults_unknown_method (siteData : SiteData) (dataConf : Dataset)
    (methodParams : DetectionMethodsParams) (checkStart checkEnd : Int)
    (h : dataConf.OutliersDetectionMethod ≠ "3-sigmas") :
    (GetResults siteData dataConf methodParams checkStart checkEnd).Result.Warnings = [] ∧
    (GetResults siteData dataConf methodParams checkStart checkEnd).Result.Alarms = [] := by
  simp only [GetResults]
  rw [metricFold_unknown siteData methodParams siteData.Metrics _ h]
  exact ⟨rfl, rfl⟩

/-- Witness for C6: a concrete site with one metric and one attribute under an
unknown method name "quantile" yields empty warning and alarm lists. -/
theorem getResults_unknown_method_witness :
    (GetResults
      ⟨"site1", 0, 7, [⟨"Revenue", "EUR", ["Total"],
        fun a => if a = "Total" then [⟨0, 1, 1⟩, ⟨1, 50, 1⟩] else []⟩]⟩
      ⟨"site1", "30d", "1d", "quantile"⟩ ⟨⟨2, 3⟩⟩ 100 101).Result.Warnings = [] ∧
    (GetResults
      ⟨"site1", 0, 7, [⟨"Revenue", "EUR", ["Total"],
        fun a => if a = "Total" then [⟨0, 1, 1⟩, ⟨1, 50, 1⟩] else []⟩]⟩
      ⟨"site1", "30d", "1d", "quantile"⟩ ⟨⟨2, 3⟩⟩ 100 101).Result.Alarms = [] :=
  getResults_unknown_method
    ⟨"site1", 0, 7, [⟨"Revenue", "EUR", ["Total"],
      fun a => if a = "Total" then [⟨0, 1, 1⟩, ⟨1, 50, 1⟩] else []⟩]⟩
    ⟨"site1", "30d", "1d", "quantile"⟩ ⟨⟨2, 3⟩⟩ 100 101 (by decide)

/-- The `unitMap` of `utils.StrToDuration`, in nanoseconds:
`ns, us, ms, s, m, h, d = 24h, w = 168h`. -/
def unitNanos (u : String) : Option Int :=
  if u = "ns" then some 1
  else if u = "us" then some 1000
  else if u = "ms" then some 1000000
  else if u = "s" then some 1000000000
  else if u = "m" then some 60000000000
  else if u = "h" then some 3600000000000
  else if u = "d" then some (24 * 3600000000000)
  else if u = "w" then some (168 * 3600000000000)
  else none

/-- The digit test `c >= '0' && c <= '9'` of the inner loop. -/
def isDigitCh (c : Char) : Bool :=
  decide ('0' ≤ c) && decide (c ≤ '9')

/-- Base-10 value of a digit run, as `strconv.ParseInt` computes it. -/
def digitsVal (ds : List Char) : Int :=
  ds.foldl (fun a c => a * 10 + ((c.toNat : Int) - 48)) 0

/-- Model of `strconv.ParseInt(s, 10, 64)` on a run of ASCII digits: fails on
the empty string and on values that do not fit in a signed 64-bit integer. -/
def parseIntDigits (ds : List Char) : Option Int :=
  if ds = [] then none
  else if digitsVal ds ≤ 9223372036854775807 then some (digitsVal ds) else none

/-- Two's-complement wrap-around of Go's `int64` arithmetic. -/
def wrap64 (x : Int) : Int :=
  (x + 2 ^ 63) % 2 ^ 64 - 2 ^ 63

/-- The outer loop of `utils.StrToDuration`, transcribed over the character
list: scan a digit run (an empty run, or a run that reaches the end of the
string, is an error), parse it, then try a one-character unit and only if that
fails a two-character unit, accumulating `res += num * multiplier`.  `fuel`
only bounds the recursion; every iteration consumes at least two characters,
so the initial fuel `length + 1` is never exhausted. -/
def durLoop : Nat → List Char → Int → Option Int
  | 0, _, _ => none
  | _ + 1, [], res => some res
  | fuel + 1, cs, res =>
    let ds := cs.takeWhile isDigitCh
    let rest := cs.dropWhile isDigitCh
    match parseIntDigits ds with
    | none => none
    | some num =>
      match rest with
      | [] => none
      | u1 :: rest1 =>
        match unitNanos (String.mk [u1]) with
        | some mult => durLoop fuel rest1 (wrap64 (res + wrap64 (num * mult)))
        | none =>
          match rest1 with
          | [] => none
          | u2 :: rest2 =>
            match unitNanos (String.mk [u1, u2]) with
            | some mult => durLoop fuel rest2 (wrap64 (res + wrap64 (num * mult)))
            | none => none

/-- Model of `utils.StrToDuration`: the empty string is an error, otherwise
run the parsing loop (Go indexes bytes; for the ASCII strings the function is
meant for, bytes and characters coincide). -/
def StrToDuration (timeStep : String) : Option Int :=
  if timeStep.length = 0 then none
  else durLoop (timeStep.length + 1) timeStep.data 0

/-- C8 (code bug): the unit map contains an entry for milliseconds, yet
`StrToDuration "1ms"` fails: the one-character lookup finds `"m"` (minutes)
first, so the two-character lookup for `"ms"` is never reached and the
leftover `"s"` makes the next digit scan fail.  Composite strings without
`ms`, such as `"1d12h"`, parse as the sum of their parts. -/
theorem strToDuration_ms_bug :
    StrToDuration "1ms" = none ∧ unitNanos "ms" = some 1000000 ∧
      StrToDuration "1m" = some 60000000000 ∧
      StrToDuration "1d12h" = some 129600000000000 := by
  refine ⟨?_, ?_, ?_, ?_⟩ <;> decide

/-- A JSON value, used to state what `encoding/json` produces for the report
structures (only the constructors the report needs). -/
inductive Json where
  | str : String → Json
  | int : Int → Json
  | arr : List Json → Json
  | obj : List (String × Json) → Json

/-- Serialization of `OutlierEvent` following its struct tags. -/
def OutlierEvent.toJson (e : OutlierEvent) : Json :=
  .obj [("outlierPeriodStart", .int e.OutlierPeriodStart),
        ("outlierPeriodEnd", .int e.OutlierPeriodEnd),
        ("metric", .str e.Metric),
        ("attribute", .str e.Attribute)]

/-- Serialization of `OutlierResults` following its struct tags. -/
def OutlierResults.toJson (r : OutlierResults) : Json :=
  .obj [("warnings", .arr (r.Warnings.map OutlierEvent.toJson)),
        ("alarms", .arr (r.Alarms.map OutlierEvent.toJson))]

/-- Serialization of `OutlierReport` following its struct tags
(`json:"siteId"`, `json:"outliersDetectionMethod"`, `json:"checkTimeStart"`,
`json:"checkTimeEnd"`, `json:"timeAgo"`, `json:"timeStep"`,
`json:"dateStart"`, `json:"dateEnd"`, `json:"result"`). -/
def OutlierReport.toJson (r : OutlierReport) : Json :=
  .obj [("siteId", .str r.SiteId),
        ("outliersDetectionMethod", .str r.OutliersDetectionMethod),
        ("checkTimeStart", .int r.CheckDateStart),
        ("checkTimeEnd", .int r.CheckDateEnd),
        ("timeAgo", .str r.TimeAgo),
        ("timeStep", .str r.TimeStep),
        ("dateStart", .int r.DateStart),
        ("dateEnd", .int r.DateEnd),
        ("result", OutlierResults.toJson r.Result)]

/-- The field names of a serialized JSON object. -/
def topKeys : Json → List String
  | .obj l => l.map Prod.fst
  | _ => []

/-- C9 (counterexample): a concrete report does not serialize with the field
names claimed by the spec (`siteId, methodName, checkStart, checkEnd, timeAgo,
timeStep, seriesStart, seriesEnd, warnings, alarms`). -/
theorem report_json_keys_counterexample :
    topKeys (OutlierReport.toJson
        ⟨"s", "3-sigmas", 0, 0, "30d", "1d", 0, 0, ⟨[], []⟩⟩) ≠
      ["siteId", "methodName", "checkStart", "checkEnd", "timeAgo", "timeStep",
        "seriesStart", "seriesEnd", "warnings", "alarms"] := by decide

/-- C9 (amended): every report serializes with exactly the camelCase keys
`siteId, outliersDetectionMethod, checkTimeStart, checkTimeEnd, timeAgo,
timeStep, dateStart, dateEnd, result`, with the warnings and alarms lists
nested under `result`. -/
theorem report_json_keys (r : OutlierReport) :
    topKeys (OutlierReport.toJson r) =
      ["siteId", "outliersDetectionMethod", "checkTimeStart", "checkTimeEnd",
        "timeAgo", "timeStep", "dateStart", "dateEnd", "result"] ∧
    topKeys (OutlierResults.toJson r.Result) = ["warnings", "alarms"] :=
  ⟨rfl, rfl⟩

/-- Relation between two periods: the first ends no later than the second
starts. -/
def EndBeforeStart (a b : eventPeriod) : Prop :=
  a.outlierPeriodEnd ≤ b.outlierPeriodStart

/-- Two periods are disjoint as half-open `[start, end)` time ranges. -/
def DisjointPeriods (a b : eventPeriod) : Prop :=
  Disjoint (Set.Ico a.outlierPeriodStart a.outlierPeriodEnd)
    (Set.Ico b.outlierPeriodStart b.outlierPeriodEnd)

/-- The invariants claimed for one detection run: every period has
`start ≤ end` and lies within `[seriesStart, seriesEnd]`, each list is in
non-decreasing start order, and all emitted periods are pairwise disjoint as
`[start, end)` ranges. -/
def GoodOutput (seriesStart seriesEnd : Int)
    (out : List eventPeriod × List eventPeriod) : Prop :=
  (∀ e ∈ out.1 ++ out.2,
      e.outlierPeriodStart ≤ e.outlierPeriodEnd ∧
      seriesStart ≤ e.outlierPeriodStart ∧ e.outlierPeriodEnd ≤ seriesEnd) ∧
  out.1.Pairwise (fun a b => a.outlierPeriodStart ≤ b.outlierPeriodStart) ∧
  out.2.Pairwise (fun a b => a.outlierPeriodStart ≤ b.outlierPeriodStart) ∧
  (out.1 ++ out.2).Pairwise DisjointPeriods

/-- Largest sample index any already-emitted period may end at: the open
index when a period is open, otherwise the number of processed samples. -/
def EmitBound (s : SMState) (pos : Nat) : Nat :=
  if s.beginStep = -1 then pos else s.beginStep.toNat

/-- Loop invariant after processing `pos` samples: the open index (if any) is
a previous position; every emitted period spans sample timestamps `tss j` to
`tss i` with `j < i`, `i` among the processed samples and no later than the
open index; each list is ordered by `EndBeforeStart`; and the two lists are
mutually ordered. -/
def Inv (data : List TimeStepData) (pos : Nat) (s : SMState) : Prop :=
  (s.beginStep = -1 ∨ ∃ j : Nat, j < pos ∧ s.beginStep = (j : Int)) ∧
  (∀ e ∈ s.warnings ++ s.alarms, ∃ j i : Nat, j < i ∧ i < pos ∧
      i ≤ EmitBound s pos ∧
      e.outlierPeriodStart = tss data j ∧ e.outlierPeriodEnd = tss data i) ∧
  s.warnings.Pairwise EndBeforeStart ∧
  s.alarms.Pairwise EndBeforeStart ∧
  (∀ w ∈ s.warnings, ∀ a ∈ s.alarms, EndBeforeStart w a ∨ EndBeforeStart a w)

/-- The invariant holds initially. -/
theorem inv_init (data : List TimeStepData) : Inv data 0 initSM := by
  refine ⟨Or.inl rfl, ?_, List.Pairwise.nil, List.Pairwise.nil, ?_⟩ <;> simp [initSM]

/-- A no-op step preserves the invariant. -/
theorem inv_noop (data : List TimeStepData) (pos : Nat) (s : SMState)
    (hinv : Inv data pos s) : Inv data (pos + 1) s := by
  obtain ⟨hb, hshape, hpw, hpa, hcross⟩ := hinv
  refine ⟨?_, ?_, hpw, hpa, hcross⟩
  · rcases hb with hb | ⟨j, hj, hb⟩
    · exact Or.inl hb
    · exact Or.inr ⟨j, Nat.lt_succ_of_lt hj, hb⟩
  · intro e he
    obtain ⟨j, i, hji, hip, hib, hs, hend⟩ := hshape e he
    refine ⟨j, i, hji, Nat.lt_succ_of_lt hip, ?_, hs, hend⟩
    unfold EmitBound at hib ⊢
    split at hib <;> simp_all <;> omega

/-- Opening a period at the current index (from a state with none open)
preserves the invariant. -/
theorem inv_open (data : List TimeStepData) (s : SMState) (ind : Nat) (b : Bool)
    (hb : s.beginStep = -1) (hinv : Inv data ind s) :
    Inv data (ind + 1) { s with beginStep := (ind : Int), strongEvent := b } := by
  obtain ⟨_, hshape, hpw, hpa, hcross⟩ := hinv
  have hne : ((ind : Nat) : Int) ≠ -1 := by omega
  refine ⟨Or.inr ⟨ind, Nat.lt_succ_self ind, rfl⟩, ?_, hpw, hpa, hcross⟩
  intro e he
  obtain ⟨j, i, hji, hip, hib, hs, hend⟩ := hshape e he
  refine ⟨j, i, hji, Nat.lt_succ_of_lt hip, ?_, hs, hend⟩
  unfold EmitBound at hib ⊢
  rw [hb] at hib
  simp only [hne, if_false]
  simp only [if_true] at hib
  omega

/-- Weak monotonicity of sample timestamps, from strict monotonicity. -/
theorem tss_mono_le (data : List TimeStepData)
    (hmono : ∀ i1 i2 : Nat, i1 < i2 → i2 < data.length → tss data i1 < tss data i2)
    {i1 i2 : Nat} (h : i1 ≤ i2) (h2 : i2 < data.length) :
    tss data i1 ≤ tss data i2 := by
  rcases Nat.lt_or_eq_of_le h with h | h
  · exact le_of_lt (hmono i1 i2 h h2)
  · rw [h]

/-- Closing the open period into the warnings list (and either reopening at
the current index or clearing the state) preserves the invariant. -/
theorem inv_close_w (data : List TimeStepData) (s : SMState) (ind : Nat)
    (nb : Int) (sb : Bool)
    (hmono : ∀ i1 i2 : Nat, i1 < i2 → i2 < data.length → tss data i1 < tss data i2)
    (hind : ind < data.length)
    (hnb : nb = (ind : Int) ∨ nb = -1)
    (hb : s.beginStep ≠ -1) (hinv : Inv data ind s) :
    Inv data (ind + 1)
      { s with warnings := s.warnings ++ [⟨startTs data s.beginStep, startTs data ind⟩],
               beginStep := nb, strongEvent := sb } := by
  obtain ⟨hbegin, hshape, hpw, hpa, hcross⟩ := hinv
  obtain ⟨j0, hj0, hbeq⟩ := hbegin.resolve_left hb
  have hj0len : j0 < data.length := lt_trans hj0 hind
  have hts : startTs data s.beginStep = tss data j0 := by
    unfold startTs tss
    rw [hbeq]
    norm_num
  have htsind : startTs data ind = tss data ind := by
    unfold startTs tss
    norm_num
  have hEB : EmitBound s ind = j0 := by
    unfold EmitBound
    rw [hbeq]
    have : ((j0 : Nat) : Int) ≠ -1 := by omega
    simp [this]
  have hfront : ∀ e ∈ s.warnings ++ s.alarms, e.outlierPeriodEnd ≤ tss data j0 := by
    intro e he
    obtain ⟨j, i, hji, hip, hib, _, hend⟩ := hshape e he
    rw [hEB] at hib
    rw [hend]
    exact tss_mono_le data hmono hib hj0len
  have hEBge : ind ≤ EmitBound
      { s with warnings := s.warnings ++ [⟨startTs data s.beginStep, startTs data ind⟩],
               beginStep := nb, strongEvent := sb } (ind + 1) := by
    unfold EmitBound
    rcases hnb with rfl | rfl
    · have : ((ind : Nat) : Int) ≠ -1 := by omega
      simp [this]
    · simp
  refine ⟨?_, ?_, ?_, hpa, ?_⟩
  · rcases hnb with rfl | rfl
    · exact Or.inr ⟨ind, Nat.lt_succ_self ind, rfl⟩
    · exact Or.inl rfl
  · intro e he
    simp only [List.mem_append, List.mem_singleton] at he
    rcases he with (he | rfl) | he
    · obtain ⟨j, i, hji, hip, hib, hs1, hend⟩ := hshape e (List.mem_append_left _ he)
      rw [hEB] at hib
      exact ⟨j, i, hji, Nat.lt_succ_of_lt hip,
        le_trans (le_trans hib (le_of_lt hj0)) hEBge, hs1, hend⟩
    · exact ⟨j0, ind, hj0, Nat.lt_succ_self ind, hEBge, hts, htsind⟩
    · obtain ⟨j, i, hji, hip, hib, hs1, hend⟩ := hshape e (List.mem_append_right _ he)
      rw [hEB] at hib
      exact ⟨j, i, hji, Nat.lt_succ_of_lt hip,
        le_trans (le_trans hib (le_of_lt hj0)) hEBge, hs1, hend⟩
  · rw [List.pairwise_append]
    refine ⟨hpw, List.pairwise_singleton _ _, ?_⟩
    intro a ha b hbm
    rw [List.mem_singleton] at hbm
    subst hbm
    show a.outlierPeriodEnd ≤ startTs data s.beginStep
    rw [hts]
    exact hfront a (List.mem_append_left _ ha)
  · intro w hw a ha
    simp only [List.mem_append, List.mem_singleton] at hw
    rcases hw with hw | rfl
    · exact hcross w hw a ha
    · refine Or.inr ?_
      show a.outlierPeriodEnd ≤ startTs data s.beginStep
      rw [hts]
      exact hfront a (List.mem_append_right _ ha)

/-- Closing the open period into the alarms list (and either reopening at the
current index or clearing the state) preserves the invariant. -/
theorem inv_close_a (data : List TimeStepData) (s : SMState) (ind : Nat)
    (nb : Int) (sb : Bool)
    (hmono : ∀ i1 i2 : Nat, i1 < i2 → i2 < data.length → tss data i1 < tss data i2)
    (hind : ind < data.length)
    (hnb : nb = (ind : Int) ∨ nb = -1)
    (hb : s.beginStep ≠ -1) (hinv : Inv data ind s) :
    Inv data (ind + 1)
      { s with alarms := s.alarms ++ [⟨startTs data s.beginStep, startTs data ind⟩],
               beginStep := nb, strongEvent := sb } := by
  obtain ⟨hbegin, hshape, hpw, hpa, hcross⟩ := hinv
  obtain ⟨j0, hj0, hbeq⟩ := hbegin.resolve_left hb
  have hj0len : j0 < data.length := lt_trans hj0 hind
  have hts : startTs data s.beginStep = tss data j0 := by
    unfold startTs tss
    rw [hbeq]
    norm_num
  have htsind : startTs data ind = tss data ind := by
    unfold startTs tss
    norm_num
  have hEB : EmitBound s ind = j0 := by
    unfold EmitBound
    rw [hbeq]
    have : ((j0 : Nat) : Int) ≠ -1 := by omega
    simp [this]
  have hfront : ∀ e ∈ s.warnings ++ s.alarms, e.outlierPeriodEnd ≤ tss data j0 := by
    intro e he
    obtain ⟨j, i, hji, hip, hib, _, hend⟩ := hshape e he
    rw [hEB] at hib
    rw [hend]
    exact tss_mono_le data hmono hib hj0len
  have hEBge : ind ≤ EmitBound
      { s with alarms := s.alarms ++ [⟨startTs data s.beginStep, startTs data ind⟩],
               beginStep := nb, strongEvent := sb } (ind + 1) := by
    unfold EmitBound
    rcases hnb with rfl | rfl
    · have : ((ind : Nat) : Int) ≠ -1 := by omega
      simp [this]
    · simp
  refine ⟨?_, ?_, hpw, ?_, ?_⟩
  · rcases hnb with rfl | rfl
    · exact Or.inr ⟨ind, Nat.lt_succ_self ind, rfl⟩
    · exact Or.inl rfl
  · intro e he
    simp only [List.mem_append, List.mem_singleton] at he
    rcases he with he | (he | rfl)
    · obtain ⟨j, i, hji, hip, hib, hs1, hend⟩ := hshape e (List.mem_append_left _ he)
      rw [hEB] at hib
      exact ⟨j, i, hji, Nat.lt_succ_of_lt hip,
        le_trans (le_trans hib (le_of_lt hj0)) hEBge, hs1, hend⟩
    · obtain ⟨j, i, hji, hip, hib, hs1, hend⟩ := hshape e (List.mem_append_right _ he)
      rw [hEB] at hib
      exact ⟨j, i, hji, Nat.lt_succ_of_lt hip,
        le_trans (le_trans hib (le_of_lt hj0)) hEBge, hs1, hend⟩
    · exact ⟨j0, ind, hj0, Nat.lt_succ_self ind, hEBge, hts, htsind⟩
  · rw [List.pairwise_append]
    refine ⟨hpa, List.pairwise_singleton _ _, ?_⟩
    intro a ha b hbm
    rw [List.mem_singleton] at hbm
    subst hbm
    show a.outlierPeriodEnd ≤ startTs data s.beginStep
    rw [hts]
    exact hfront a (List.mem_append_right _ ha)
  · intro w hw a ha
    simp only [List.mem_append, List.mem_singleton] at ha
    rcases ha with ha | rfl
    · exact hcross w hw a ha
    · refine Or.inl ?_
      show w.outlierPeriodEnd ≤ startTs data s.beginStep
      rw [hts]
      exact hfront w (List.mem_append_left _ hw)

/-- Every branch of the loop body preserves the invariant. -/
theorem inv_step (data : List TimeStepData) (mean var wM sM : Rat)
    (s : SMState) (ind : Nat)
    (hmono : ∀ i1 i2 : Nat, i1 < i2 → i2 < data.length → tss data i1 < tss data i2)
    (hind : ind < data.length) (hinv : Inv data ind s) :
    Inv data (ind + 1) (loopBody data mean var wM sM s ind) := by
  unfold loopBody
  by_cases h1 : exceedsLimit (valAt data ind) mean sM var = true
  · rw [if_pos h1]
    by_cases h3 : s.beginStep = -1
    · rw [if_pos h3]
      exact inv_open data s ind true h3 hinv
    · rw [if_neg h3]
      by_cases h4 : s.strongEvent = false
      · rw [if_pos h4]
        exact inv_close_w data s ind (ind : Int) true hmono hind (Or.inl rfl) h3 hinv
      · rw [if_neg h4]
        exact inv_noop data ind s hinv
  · rw [if_neg h1]
    by_cases h2 : exceedsLimit (valAt data ind) mean wM var = true
    · rw [if_pos h2]
      by_cases h3 : s.beginStep = -1
      · rw [if_pos h3]
        exact inv_open data s ind false h3 hinv
      · rw [if_neg h3]
        by_cases h4 : s.strongEvent = true
        · rw [if_pos h4]
          exact inv_close_a data s ind (ind : Int) false hmono hind (Or.inl rfl) h3 hinv
        · rw [if_neg h4]
          exact inv_noop data ind s hinv
    · rw [if_neg h2]
      by_cases h3 : s.beginStep ≠ -1
      · rw [if_pos h3]
        by_cases h4 : s.strongEvent = true
        · rw [if_pos h4]
          exact inv_close_a data s ind (-1) s.strongEvent hmono hind (Or.inr rfl) h3 hinv
        · rw [if_neg h4]
          exact inv_close_w data s ind (-1) s.strongEvent hmono hind (Or.inr rfl) h3 hinv
      · rw [if_neg h3]
        exact inv_noop data ind s hinv

/-- The invariant holds for the final state of the classification loop. -/
theorem inv_runLoop (data : List TimeStepData) (mean var wM sM : Rat)
    (hmono : ∀ i1 i2 : Nat, i1 < i2 → i2 < data.length → tss data i1 < tss data i2) :
    Inv data data.length (runLoop data mean var wM sM) := by
  unfold runLoop
  have h : ∀ n, n ≤ data.length →
      Inv data n ((List.range n).foldl (loopBody data mean var wM sM) initSM) := by
    intro n
    induction n with
    | zero => intro _; simpa using inv_init data
    | succ n ih =>
      intro hn
      rw [List.range_succ, List.foldl_append, List.foldl_cons, List.foldl_nil]
      exact inv_step data mean var wM sM _ n hmono (Nat.lt_of_succ_le hn)
        (ih (Nat.le_of_succ_le hn))
  exact h data.length le_rfl

/-- Shape of the output after the final close: every emitted period spans two
sample timestamps, or spans a sample timestamp and the supplied boundary;
lists are ordered by `EndBeforeStart`, also across each other. -/
def FinalShape (data : List TimeStepData) (PeriodEnd : Int) (s : SMState) : Prop :=
  (∀ e ∈ s.warnings ++ s.alarms,
      (∃ j i : Nat, j < i ∧ i < data.length ∧
        e.outlierPeriodStart = tss data j ∧ e.outlierPeriodEnd = tss data i) ∨
      (∃ j : Nat, j < data.length ∧
        e.outlierPeriodStart = tss data j ∧ e.outlierPeriodEnd = PeriodEnd)) ∧
  s.warnings.Pairwise EndBeforeStart ∧
  s.alarms.Pairwise EndBeforeStart ∧
  (∀ w ∈ s.warnings, ∀ a ∈ s.alarms, EndBeforeStart w a ∨ EndBeforeStart a w)

/-- The final close turns the loop invariant into the output shape, provided
the boundary is no earlier than every sample timestamp. -/
theorem closeOpen_final (data : List TimeStepData) (PeriodEnd : Int) (s : SMState)
    (hmono : ∀ i1 i2 : Nat, i1 < i2 → i2 < data.length → tss data i1 < tss data i2)
    (hPE : ∀ i : Nat, i < data.length → tss data i ≤ PeriodEnd)
    (hinv : Inv data data.length s) :
    FinalShape data PeriodEnd (closeOpen data PeriodEnd s) := by
  obtain ⟨hbegin, hshape, hpw, hpa, hcross⟩ := hinv
  have hold : ∀ e ∈ s.warnings ++ s.alarms,
      ∃ j i : Nat, j < i ∧ i < data.length ∧
        e.outlierPeriodStart = tss data j ∧ e.outlierPeriodEnd = tss data i := by
    intro e he
    obtain ⟨j, i, hji, hip, _, hs1, hend⟩ := hshape e he
    exact ⟨j, i, hji, hip, hs1, hend⟩
  unfold closeOpen
  by_cases hb : s.beginStep ≠ -1
  · rw [if_pos hb]
    obtain ⟨j0, hj0, hbeq⟩ := hbegin.resolve_left hb
    have hts : startTs data s.beginStep = tss data j0 := by
      unfold startTs tss
      rw [hbeq]
      norm_num
    have hEB : EmitBound s data.length = j0 := by
      unfold EmitBound
      rw [hbeq]
      have : ((j0 : Nat) : Int) ≠ -1 := by omega
      simp [this]
    have hfront : ∀ e ∈ s.warnings ++ s.alarms,
        e.outlierPeriodEnd ≤ tss data j0 := by
      intro e he
      obtain ⟨j, i, hji, hip, hib, _, hend⟩ := hshape e he
      rw [hEB] at hib
      rw [hend]
      exact tss_mono_le data hmono hib hj0
    by_cases h4 : s.strongEvent = true
    · rw [if_pos h4]
      refine ⟨?_, hpw, ?_, ?_⟩
      · intro e he
        simp only [List.mem_append, List.mem_singleton] at he
        rcases he with he | (he | rfl)
        · exact Or.inl (hold e (List.mem_append_left _ he))
        · exact Or.inl (hold e (List.mem_append_right _ he))
        · exact Or.inr ⟨j0, hj0, hts, rfl⟩
      · rw [List.pairwise_append]
        refine ⟨hpa, List.pairwise_singleton _ _, ?_⟩
        intro a ha b hbm
        rw [List.mem_singleton] at hbm
        subst hbm
        show a.outlierPeriodEnd ≤ startTs data s.beginStep
        rw [hts]
        exact hfront a (List.mem_append_right _ ha)
      · intro w hw a ha
        simp only [List.mem_append, List.mem_singleton] at ha
        rcases ha with ha | rfl
        · exact hcross w hw a ha
        · refine Or.inl ?_
          show w.outlierPeriodEnd ≤ startTs data s.beginStep
          rw [hts]
          exact hfront w (List.mem_append_left _ hw)
    · rw [if_neg h4]
      refine ⟨?_, ?_, hpa, ?_⟩
      · intro e he
        simp only [List.mem_append, List.mem_singleton] at he
        rcases he with (he | rfl) | he
        · exact Or.inl (hold e (List.mem_append_left _ he))
        · exact Or.inr ⟨j0, hj0, hts, rfl⟩
        · exact Or.inl (hold e (List.mem_append_right _ he))
      · rw [List.pairwise_append]
        refine ⟨hpw, List.pairwise_singleton _ _, ?_⟩
        intro a ha b hbm
        rw [List.mem_singleton] at hbm
        subst hbm
        show a.outlierPeriodEnd ≤ startTs data s.beginStep
        rw [hts]
        exact hfront a (List.mem_append_left _ ha)
      · intro w hw a ha
        simp only [List.mem_append, List.mem_singleton] at hw
        rcases hw with hw | rfl
        · exact hcross w hw a ha
        · refine Or.inr ?_
          show a.outlierPeriodEnd ≤ startTs data s.beginStep
          rw [hts]
          exact hfront a (List.mem_append_right _ ha)
  · rw [if_neg hb]
    exact ⟨fun e he => Or.inl (hold e he), hpw, hpa, hcross⟩

/-- From `EndBeforeStart` ordering and `start ≤ end` per element, each list is
in non-decreasing start order. -/
theorem pairwise_start_le (l : List eventPeriod)
    (hse : ∀ e ∈ l, e.outlierPeriodStart ≤ e.outlierPeriodEnd)
    (hp : l.Pairwise EndBeforeStart) :
    l.Pairwise (fun a b => a.outlierPeriodStart ≤ b.outlierPeriodStart) := by
  induction l with
  | nil => exact List.Pairwise.nil
  | cons x l ih =>
    rw [List.pairwise_cons] at hp ⊢
    exact ⟨fun y hy => le_trans (hse x (List.mem_cons_self x l)) (hp.1 y hy),
      ih (fun e he => hse e (List.mem_cons_of_mem x he)) hp.2⟩

/-- A period ending before another starts is disjoint from it as `[start, end)`
ranges. -/
theorem endBefore_disjoint {a b : eventPeriod} (h : EndBeforeStart a b) :
    DisjointPeriods a b := by
  unfold DisjointPeriods
  rw [Set.Ico_disjoint_Ico]
  exact le_trans (min_le_left _ _) (le_trans h (le_max_right _ _))

/-- C7: for every series with strictly increasing timestamps inside
`[seriesStart, seriesEnd]` and boundary `seriesEnd`, one run of
`detectOutliers3Sigmas` emits periods with `start ≤ end`, all inside
`[seriesStart, seriesEnd]`, each list in non-decreasing start order, and all
periods pairwise disjoint as `[start, end)` ranges (in particular the interior
closes). -/
theorem detect_invariants (data : List TimeStepData)
    (seriesStart seriesEnd : Int) (wM sM : Rat)
    (hmono : ∀ i1 i2 : Nat, i1 < i2 → i2 < data.length → tss data i1 < tss data i2)
    (hrange : ∀ i : Nat, i < data.length →
      seriesStart ≤ tss data i ∧ tss data i ≤ seriesEnd) :
    GoodOutput seriesStart seriesEnd (detectOutliers3Sigmas data seriesEnd wM sM) := by
  have hfin := closeOpen_final data seriesEnd
    (runLoop data (meanOf data) (varOf data) wM sM) hmono
    (fun i hi => (hrange i hi).2)
    (inv_runLoop data (meanOf data) (varOf data) wM sM hmono)
  obtain ⟨hshape, hpw, hpa, hcross⟩ := hfin
  have hout : detectOutliers3Sigmas data seriesEnd wM sM =
      ((closeOpen data seriesEnd
          (runLoop data (meanOf data) (varOf data) wM sM)).warnings,
        (closeOpen data seriesEnd
          (runLoop data (meanOf data) (varOf data) wM sM)).alarms) := rfl
  rw [hout]
  set sF := closeOpen data seriesEnd (runLoop data (meanOf data) (varOf data) wM sM)
  have hbounds : ∀ e ∈ sF.warnings ++ sF.alarms,
      e.outlierPeriodStart ≤ e.outlierPeriodEnd ∧
      seriesStart ≤ e.outlierPeriodStart ∧ e.outlierPeriodEnd ≤ seriesEnd := by
    intro e he
    rcases hshape e he with ⟨j, i, hji, hil, hs1, he1⟩ | ⟨j, hjl, hs1, he1⟩
    · have hjl : j < data.length := lt_trans hji hil
      refine ⟨?_, ?_, ?_⟩
      · rw [hs1, he1]
        exact le_of_lt (hmono j i hji hil)
      · rw [hs1]
        exact (hrange j hjl).1
      · rw [he1]
        exact (hrange i hil).2
    · refine ⟨?_, ?_, le_of_eq he1⟩
      · rw [hs1, he1]
        exact (hrange j hjl).2
      · rw [hs1]
        exact (hrange j hjl).1
  refine ⟨hbounds, ?_, ?_, ?_⟩
  · exact pairwise_start_le _
      (fun e he => (hbounds e (List.mem_append_left _ he)).1) hpw
  · exact pairwise_start_le _
      (fun e he => (hbounds e (List.mem_append_right _ he)).1) hpa
  · rw [List.pairwise_append]
    refine ⟨hpw.imp endBefore_disjoint, hpa.imp endBefore_disjoint, ?_⟩
    intro w hw a ha
    rcases hcross w hw a ha with h | h
    · exact endBefore_disjoint h
    · exact (endBefore_disjoint h).symm

/-- Witness for C7: the invariants hold on a concrete two-sample series with
multipliers 0 and 1 and boundary 999. -/
theorem detect_invariants_witness :
    GoodOutput 0 999
      (detectOutliers3Sigmas [⟨0, 0, 100⟩, ⟨1, 10, 100⟩] 999 0 1) :=
  detect_invariants [⟨0, 0, 100⟩, ⟨1, 10, 100⟩] 0 999 0 1
    (by
      intro i1 i2 h12 h2
      have h1 : i2 = 1 := by
        simp only [List.length_cons, List.length_nil] at h2
        omega
      subst h1
      have h0 : i1 = 0 := by omega
      subst h0
      decide)
    (by
      intro i hi
      simp only [List.length_cons, List.length_nil] at hi
      have : i = 0 ∨ i = 1 := by omega
      rcases this with rfl | rfl
      · exact ⟨by decide, by decide⟩
      · exact ⟨by decide, by decide⟩)

/-- C10: on the empty series, `detectOutliers3Sigmas` returns two empty lists
for every boundary and every pair of multipliers: the classification loop runs
zero times, no period is ever open, and the degenerate statistics (a division
by a count of zero) never reach the output. -/
theorem detect_empty_series (PeriodEnd : Int) (wM sM : Rat) :
    detectOutliers3Sigmas [] PeriodEnd wM sM = ([], []) := rfl

end AnomaliesDetector
